import Mathlib

/-
  Verification of the relay engine of the test-proxy-with-manager-forward
  repository against its specification.

  The development shallowly embeds the two source variants:
  * `src/server.js` — the review-RPC variant: HTTP handler with
    request-review / response-review RPCs, direct-splice CONNECT,
    the pending-decision table and the manager handover logic;
  * `src/unnamed/part_000` — the relayed variant: CONNECT bytes are
    multiplexed over the manager channel as base64 data frames.

  Buffers are modelled as lists of byte values (`List Nat`, each < 256);
  JS objects used as header maps are association lists; JS truthiness on
  optional string / number fields is modelled explicitly (`jsOr`,
  `jsOrNat`, `jsBodyPick`), since the source uses `||` and `?:` which
  treat the empty string and 0 as absent.
-/

namespace ProxyRelay

/-! ## Base64 codec (model of Buffer.toString base64 / Buffer.from base64) -/

/-- The base64 alphabet, in index order. -/
def b64Chars : List Char :=
  "ABCDEFGHIJKLMNOPQRSTUVWXYZabcdefghijklmnopqrstuvwxyz0123456789+/".data

/-- Character for a 6-bit value. -/
def b64Char (n : Nat) : Char := b64Chars.getD n 'A'

/-- RFC 4648 base64 encoding of a byte list, with padding, as
`Buffer.prototype.toString` with encoding base64 produces. -/
def base64EncodeChars : List Nat → List Char
  | [] => []
  | [a] => [b64Char (a / 4), b64Char (a % 4 * 16), '=', '=']
  | [a, b] => [b64Char (a / 4), b64Char (a % 4 * 16 + b / 16), b64Char (b % 16 * 4), '=']
  | a :: b :: c :: rest =>
      b64Char (a / 4) :: b64Char (a % 4 * 16 + b / 16) ::
        b64Char (b % 16 * 4 + c / 64) :: b64Char (c % 64) :: base64EncodeChars rest

/-- Base64 decoding; invalid characters decode leniently (as Node's
decoder does) via the index of the character in the alphabet. -/
def base64DecodeChars : List Char → List Nat
  | c1 :: c2 :: c3 :: c4 :: rest =>
      let v1 := b64Chars.indexOf c1
      let v2 := b64Chars.indexOf c2
      if c3 = '=' then [v1 * 4 + v2 / 16]
      else
        let v3 := b64Chars.indexOf c3
        if c4 = '=' then [v1 * 4 + v2 / 16, v2 % 16 * 16 + v3 / 4]
        else
          let v4 := b64Chars.indexOf c4
          (v1 * 4 + v2 / 16) :: (v2 % 16 * 16 + v3 / 4) :: (v3 % 4 * 64 + v4) ::
            base64DecodeChars rest
  | _ => []

def base64Encode (bs : List Nat) : String := String.mk (base64EncodeChars bs)

def base64Decode (s : String) : List Nat := base64DecodeChars s.data

/-! ## Header maps (JS objects as association lists) -/

/-- First-match association lookup: the value a JS property read sees. -/
def hlookup (k : String) : List (String × String) → Option String
  | [] => none
  | p :: t => if p.1 = k then some p.2 else hlookup k t

/-- Model of a two-source JS Object.assign with an empty target: keys of
`base` keep their position with values overridden by `ov` where `ov`
has the key, and keys only in `ov` are appended in order. -/
def objAssign (base ov : List (String × String)) : List (String × String) :=
  base.map (fun p => (p.1, match hlookup p.1 ov with | some w => w | none => p.2))
    ++ ov.filter (fun p => (hlookup p.1 base).isNone)

/-! ## JS truthiness helpers -/

/-- Model of a JS `x || d` where `x` is an optional string field:
both an absent field and the empty string fall back to the default. -/
def jsOr (o : Option String) (d : String) : String :=
  match o with
  | some s => if s = "" then d else s
  | none => d

/-- Model of a JS `x || d` on an optional number field: 0 is falsy. -/
def jsOrNat (o : Option Nat) (d : Nat) : Nat :=
  match o with
  | some n => if n = 0 then d else n
  | none => d

/-- Model of the source's `m.body ? Buffer.from(m.body, base64) : orig`:
an absent or empty base64 string keeps the original bytes. -/
def jsBodyPick (o : Option String) (orig : List Nat) : List Nat :=
  match o with
  | some s => if s = "" then orig else base64Decode s
  | none => orig

/-- Bytes a JS string write puts on the wire (codepoint model, all the
string literals of the source are ASCII). -/
def strBytes (s : String) : List Nat := s.data.map Char.toNat

/-! ## Control frames and decisions (src/server.js data model) -/

/-- The optional `modified` record of a manager decision. -/
structure Modified where
  url : Option String
  method : Option String
  headers : Option (List (String × String))
  body : Option String
  status : Option Nat
deriving DecidableEq

/-- A manager `decision` reply. Fields a JS object may simply lack are
optional. -/
structure Decision where
  action : Option String
  reason : Option String
  modified : Option Modified
deriving DecidableEq

/-- Outbound frames src/server.js sends to the manager over the channel. -/
inductive Frame
  | reviewRequestHttp (id method url : String)
      (headers : List (String × String)) (bodyB64 : String)
  | reviewRequestConnect (id host : String) (port : Nat)
      (headers : List (String × String))
  | responseReview (id : String) (status : Nat)
      (headers : List (String × String)) (bodyB64 : String)
deriving DecidableEq

/-- The RequestId a frame carries. -/
def frameId : Frame → String
  | .reviewRequestHttp i _ _ _ _ => i
  | .reviewRequestConnect i _ _ _ => i
  | .responseReview i _ _ _ => i

/-- Failure modes of `askManager` in src/server.js. -/
inductive AskError
  | managerNotConnected
  | managerTimeout
  | managerDisconnected
deriving DecidableEq

/-- Model of `askManager` (src/server.js lines 102-114): if no manager
channel is open it rejects immediately with manager-not-connected and no
frame is written; otherwise the frame is written and the waiter's
eventual outcome (a decision reply, a timeout, or failAll) is supplied
by the oracle. The Bool records whether the frame was sent. -/
def askM (connected : Bool) (oracle : Except AskError Decision) :
    Except AskError Decision × Bool :=
  if connected then (oracle, true)
  else (Except.error AskError.managerNotConnected, false)

/-! ## HTTP handler (src/server.js server.on request, lines 143-221) -/

structure HttpRequest where
  method : String
  url : String
  headers : List (String × String)
  body : List Nat
deriving DecidableEq

/-- The request `forwardHttpRequest` performs against the target. -/
structure ForwardedRequest where
  url : String
  method : String
  headers : List (String × String)
  body : List Nat
deriving DecidableEq

structure TargetResp where
  status : Nat
  headers : List (String × String)
  body : List Nat
deriving DecidableEq

/-- Which return point of the handler produced the client response; one
constructor per `return` (or fall-through) in the source. -/
inductive HttpPath
  | err504
  | rejected403
  | fallbackOriginal
  | respRejected403
  | merged
deriving DecidableEq

structure HttpResult where
  status : Nat
  rheaders : List (String × String)
  rbody : List Nat
  targetCall : Option ForwardedRequest
  frames : List Frame
  path : HttpPath
deriving DecidableEq

/-- Lines 176-179 of src/server.js: the merged request sent to the
target. `finalUrl`, `finalMethod` use JS truthy fallback, headers are a
shallow Object.assign with the manager record last, the body is replaced
only when `modified.body` is truthy. -/
def codeFinalRequest (req : HttpRequest) (d : Decision) : ForwardedRequest :=
  { url := jsOr (d.modified.bind Modified.url) req.url
    method := jsOr (d.modified.bind Modified.method) req.method
    headers := objAssign req.headers ((d.modified.bind Modified.headers).getD [])
    body := jsBodyPick (d.modified.bind Modified.body) req.body }

/-- Lines 209-211 of src/server.js: the merged response written to the
client after an accepted response review. -/
def codeFinalResponse (tresp : TargetResp) (d : Decision) : TargetResp :=
  { status := jsOrNat (d.modified.bind Modified.status) tresp.status
    headers := objAssign tresp.headers ((d.modified.bind Modified.headers).getD [])
    body := jsBodyPick (d.modified.bind Modified.body) tresp.body }

/-- Merge of `modified` over the original request as the specification
words it: url, method, body replaced exactly when the field is present,
headers shallow-merged. For comparison with `codeFinalRequest`. -/
def specMergeHttp (req : HttpRequest) (m : Modified) : ForwardedRequest :=
  { url := m.url.getD req.url
    method := m.method.getD req.method
    headers := objAssign req.headers (m.headers.getD [])
    body := (m.body.map base64Decode).getD req.body }

/-- The original request, unchanged, as a target request. -/
def toForwarded (req : HttpRequest) : ForwardedRequest :=
  { url := req.url, method := req.method, headers := req.headers, body := req.body }

/-- The review-request frame of lines 150-158 of src/server.js. -/
def httpReviewMsg (rid : String) (req : HttpRequest) : Frame :=
  Frame.reviewRequestHttp rid req.method req.url req.headers (base64Encode req.body)

/-- The response-review frame of lines 185-191 of src/server.js. -/
def httpRespMsg (rid : String) (tresp : TargetResp) : Frame :=
  Frame.responseReview rid tresp.status tresp.headers (base64Encode tresp.body)

/-- The tail of the HTTP handler after an accepted request review
(lines 176-214 of src/server.js): forward the merged request to the
target, run the response review, and either fall back to the original
target response, answer 403, or write the merged response. -/
def httpPhase2 (conn2 : Bool) (req : HttpRequest) (rid : String) (d1 : Decision)
    (o2 : Except AskError Decision)
    (target : ForwardedRequest → TargetResp) : HttpResult :=
  let fwd := codeFinalRequest req d1
  let tresp := target fwd
  match askM conn2 o2 with
  | (Except.error _, sent2) =>
      { status := tresp.status, rheaders := tresp.headers, rbody := tresp.body,
        targetCall := some fwd,
        frames := httpReviewMsg rid req ::
          (if sent2 then [httpRespMsg rid tresp] else []),
        path := HttpPath.fallbackOriginal }
  | (Except.ok d2, _) =>
      if d2.action = some "reject" then
        { status := 403, rheaders := [],
          rbody := strBytes (jsOr d2.reason "Response rejected by manager"),
          targetCall := some fwd,
          frames := [httpReviewMsg rid req, httpRespMsg rid tresp],
          path := HttpPath.respRejected403 }
      else
        { status := (codeFinalResponse tresp d2).status,
          rheaders := (codeFinalResponse tresp d2).headers,
          rbody := (codeFinalResponse tresp d2).body,
          targetCall := some fwd,
          frames := [httpReviewMsg rid req, httpRespMsg rid tresp],
          path := HttpPath.merged }

/-- One run of the HTTP proxy handler of src/server.js for a buffered
request. `conn1` / `conn2` say whether a manager channel is open when
each of the two review RPCs is issued, `o1` / `o2` are the outcomes the
pending-decision waiter of each RPC would see, and `target` is the
target's response to the forwarded request (the target is assumed to
respond; a dial failure takes the generic 500 path, which no claim
concerns). Mirrors lines 143-221 of src/server.js. -/
def httpHandle (conn1 conn2 : Bool) (req : HttpRequest) (rid : String)
    (o1 o2 : Except AskError Decision)
    (target : ForwardedRequest → TargetResp) : HttpResult :=
  match askM conn1 o1 with
  | (Except.error _, sent1) =>
      { status := 504, rheaders := [],
        rbody := strBytes "Manager timeout / disconnected",
        targetCall := none,
        frames := if sent1 then [httpReviewMsg rid req] else [],
        path := HttpPath.err504 }
  | (Except.ok d1, _) =>
      if d1.action = some "reject" then
        { status := 403, rheaders := [],
          rbody := strBytes (jsOr d1.reason "Rejected by manager"),
          targetCall := none, frames := [httpReviewMsg rid req],
          path := HttpPath.rejected403 }
      else httpPhase2 conn2 req rid d1 o2 target

/-! ## CONNECT handler, direct-splice variant
(src/server.js server.on connect, lines 224-257) -/

structure ConnectResult where
  writes : List String
  frames : List Frame
  tunneled : Bool
  targetDialed : Bool
deriving DecidableEq

def http200Line : String := "HTTP/1.1 200 Connection Established\r\n\r\n"

def http403Line : String := "HTTP/1.1 403 Forbidden\r\n\r\n"

def http502Line : String := "HTTP/1.1 502 Bad Gateway\r\n\r\n"

def http504Line : String := "HTTP/1.1 504 Gateway Timeout\r\n\r\n"

/-- One run of the CONNECT handler of src/server.js. `targetConnects`
says whether the TCP dial to the target succeeds. `writes` are the raw
status lines written to the client socket; `tunneled` is true when the
bidirectional pipe was established. -/
def connectHandle (connected : Bool) (rid host : String) (port : Nat)
    (headers : List (String × String)) (oracle : Except AskError Decision)
    (targetConnects : Bool) : ConnectResult :=
  let review := Frame.reviewRequestConnect rid host port headers
  match askM connected oracle with
  | (Except.error _, sent) =>
      { writes := [http504Line], frames := if sent then [review] else [],
        tunneled := false, targetDialed := false }
  | (Except.ok d, _) =>
      if d.action = some "reject" then
        { writes := [http403Line], frames := [review],
          tunneled := false, targetDialed := false }
      else if targetConnects then
        { writes := [http200Line], frames := [review],
          tunneled := true, targetDialed := true }
      else
        { writes := [http502Line], frames := [review],
          tunneled := false, targetDialed := true }

/-! ## Relayed variant (src/unnamed/part_000)
The CONNECT handler there registers the client socket under the next
numeric id and answers 200 at once; every client chunk becomes a data
frame, inbound data and end frames are dispatched by registered id, and
a client close unregisters and emits a final end frame. It never sends
any review-request: the only frames this variant produces are data and
end frames, so `RelayFrame` has exactly those constructors. -/

inductive RelayFrame
  | data (id host port dataB64 : String)
  | endFrame (id : String)
deriving DecidableEq

structure RelayConnectResult where
  writes : List String
  frames : List RelayFrame
  registeredId : Option String
deriving DecidableEq

def relay502Text : String := "HTTP/1.1 502 Bad Gateway\r\n\r\nManager not connected"

/-- Setup part of the part_000 CONNECT handler (lines 72-104): no
manager → end the socket with a 502; otherwise register the socket and
write the 200 immediately. No frame is sent at setup. -/
def relayConnect (managerOpen : Bool) (nextId : Nat) : RelayConnectResult :=
  if managerOpen then
    { writes := [http200Line], frames := [], registeredId := some (toString nextId) }
  else
    { writes := [relay502Text], frames := [], registeredId := none }

/-- The data listener (lines 84-94): each client chunk is sent to the
manager as a data frame holding its base64 encoding. -/
def relayOnData (id host port : String) (chunk : List Nat) : RelayFrame :=
  RelayFrame.data id host port (base64Encode chunk)

/-- The close listener (lines 96-101): unregister the id, and emit a
final end frame when the manager channel is still open. -/
def relayOnClose (managerOpen : Bool) (id : String) (conns : List String) :
    List String × List RelayFrame :=
  (conns.filter (fun c => !(c == id)),
   if managerOpen then [RelayFrame.endFrame id] else [])

/-- Effect of an inbound manager frame on a client socket. -/
inductive SockEffect
  | write (id : String) (bytes : List Nat)
  | endSock (id : String)
  | noEffect
deriving DecidableEq

/-- Inbound dispatch of the part_000 manager message listener
(lines 35-52): frames whose id is not registered are dropped; data
frames are written base64-decoded; end frames half-close the socket. -/
def relayDispatch (conns : List String) (id ty dataB64 : String) : SockEffect :=
  if conns.contains id then
    if ty = "data" then SockEffect.write id (base64Decode dataB64)
    else if ty = "end" then SockEffect.endSock id
    else SockEffect.noEffect
  else SockEffect.noEffect

/-! ## Pending-decision table and manager handover
(src/server.js wss.on connection, lines 45-99, and askManager)

A small-step event model of the shared state the WebSocket callbacks of
src/server.js mutate: the single `manager` slot and the process-wide
`pendingDecisions` map. Channels are numbered by arrival order (a
generation). One fidelity point drives the model: `manager.close()` at
line 49 only starts the closing handshake, and the close listener of
line 72 — which rejects and clears every entry of the shared map — runs
on a later event-loop turn, after `manager = ws` has already installed
the replacement. A closed-but-not-yet-torn-down channel therefore sits
in `closing` until its `closeFire` event runs. Request ids are uuids in
the source, so an `ask` whose id is already pending cannot occur and the
model skips it; each waiter also carries a unique number `wid` so that
resolving exactly once is expressible. -/

structure Waiter where
  wid : Nat
  rid : String
  chan : Nat
deriving DecidableEq

/-- How a waiter was settled. `disconnectedBy g` is the rejection with
manager-disconnected performed by the close listener of channel `g`. -/
inductive Outcome
  | replyResolved
  | timedOut
  | disconnectedBy (chan : Nat)
deriving DecidableEq

structure RelayState where
  current : Option Nat
  nextGen : Nat
  nextWid : Nat
  pending : List Waiter
  closing : List Nat
  history : List (Waiter × Outcome)
deriving DecidableEq

/-- The events the callbacks of src/server.js react to. -/
inductive Ev
  | connect
  | ask (rid : String)
  | reply (rid : String)
  | timerFire (rid : String)
  | closeFire (g : Nat)
deriving DecidableEq

/-- Settle the pending waiter of a request id: remove it from the table
and record the outcome (decision reply at lines 57-63, or the timeout at
lines 107-110). -/
def resolvePending (s : RelayState) (rid : String) (oc : Outcome) : RelayState :=
  match s.pending.find? (fun w => w.rid == rid) with
  | some w =>
      { s with
        pending := s.pending.filter (fun w2 => !(w2.wid == w.wid)),
        history := s.history ++ [(w, oc)] }
  | none => s

def closeEnabled (s : RelayState) (g : Nat) : Prop :=
  (s.closing.contains g || s.current == some g) = true

instance (s : RelayState) (g : Nat) : Decidable (closeEnabled s g) := by
  unfold closeEnabled; infer_instance

def step (s : RelayState) : Ev → RelayState
  | Ev.connect =>
      { s with
        current := some s.nextGen,
        nextGen := s.nextGen + 1,
        closing := match s.current with
          | some g => s.closing ++ [g]
          | none => s.closing }
  | Ev.ask rid =>
      match s.current with
      | none => s
      | some g =>
          if s.pending.any (fun w => w.rid == rid) then s
          else
            { s with
              pending := s.pending ++ [⟨s.nextWid, rid, g⟩],
              nextWid := s.nextWid + 1 }
  | Ev.reply rid => resolvePending s rid Outcome.replyResolved
  | Ev.timerFire rid => resolvePending s rid Outcome.timedOut
  | Ev.closeFire g =>
      if s.closing.contains g || s.current == some g then
        { s with
          pending := [],
          history := s.history ++ s.pending.map (fun w => (w, Outcome.disconnectedBy g)),
          closing := s.closing.filter (fun g2 => !(g2 == g)),
          current := if s.current == some g then none else s.current }
      else s

def state0 : RelayState :=
  { current := none, nextGen := 0, nextWid := 0, pending := [], closing := [],
    history := [] }

def run (evs : List Ev) : RelayState := evs.foldl step state0

def widsP (s : RelayState) : List Nat := s.pending.map Waiter.wid

def widsH (s : RelayState) : List Nat := s.history.map (fun p => p.1.wid)

/-- The table invariant: waiter numbers in the table and in the
resolution history are below the allocator, a waiter number occurs at
most once in the history, and no waiter is both pending and settled. -/
def Inv (s : RelayState) : Prop :=
  (∀ w ∈ s.pending, w.wid < s.nextWid) ∧
  (∀ p ∈ s.history, p.1.wid < s.nextWid) ∧
  (widsP s).Nodup ∧
  (widsH s).Nodup ∧
  (∀ w ∈ s.pending, w.wid ∉ widsH s)

/-! ## Concrete fixtures (the spec's scenario inputs) -/

def dAccept : Decision := ⟨some "accept", none, none⟩

def dNoAction : Decision := ⟨none, none, none⟩

def dEmptyAction : Decision := ⟨some "", none, none⟩

def dRejectBlocked : Decision := ⟨some "reject", some "blocked", none⟩

def dRejectEmptyReason : Decision := ⟨some "reject", some "", none⟩

def modEmptyUrl : Modified := ⟨some "", none, none, none, none⟩

def dAcceptEmptyUrl : Decision := ⟨some "accept", none, some modEmptyUrl⟩

def exReq : HttpRequest :=
  ⟨"GET", "http://example.test/a", [("host", "example.test")], [104, 105]⟩

def exTarget : ForwardedRequest → TargetResp :=
  fun _ => ⟨200, [("content-type", "text/plain")], [104, 105]⟩

theorem b64_indexOf_b64Char : ∀ v, v < 64 → b64Chars.indexOf (b64Char v) = v := by decide

theorem b64Char_ne_pad : ∀ v, v < 64 → b64Char v ≠ '=' := by decide

theorem base64DecodeChars_cons (c1 c2 c3 c4 : Char) (rest : List Char) :
    base64DecodeChars (c1 :: c2 :: c3 :: c4 :: rest)
      = (if c3 = '=' then [b64Chars.indexOf c1 * 4 + b64Chars.indexOf c2 / 16]
         else if c4 = '=' then
           [b64Chars.indexOf c1 * 4 + b64Chars.indexOf c2 / 16,
            b64Chars.indexOf c2 % 16 * 16 + b64Chars.indexOf c3 / 4]
         else
           (b64Chars.indexOf c1 * 4 + b64Chars.indexOf c2 / 16) ::
           (b64Chars.indexOf c2 % 16 * 16 + b64Chars.indexOf c3 / 4) ::
           (b64Chars.indexOf c3 % 4 * 64 + b64Chars.indexOf c4) ::
           base64DecodeChars rest) := rfl

theorem b64_chars_roundtrip :
    ∀ bs : List Nat, (∀ b ∈ bs, b < 256) →
      base64DecodeChars (base64EncodeChars bs) = bs := by
  intro bs
  induction bs using base64EncodeChars.induct with
  | case1 =>
      intro _; rfl
  | case2 a =>
      intro h
      have ha : a < 256 := h a (by simp)
      have he : base64EncodeChars [a] = [b64Char (a / 4), b64Char (a % 4 * 16), '=', '='] := rfl
      rw [he, base64DecodeChars_cons, if_pos rfl]
      rw [b64_indexOf_b64Char (a / 4) (by omega), b64_indexOf_b64Char (a % 4 * 16) (by omega)]
      simp only [List.cons.injEq, and_true]
      omega
  | case3 a b =>
      intro h
      have ha : a < 256 := h a (by simp)
      have hb : b < 256 := h b (by simp)
      have he : base64EncodeChars [a, b]
          = [b64Char (a / 4), b64Char (a % 4 * 16 + b / 16), b64Char (b % 16 * 4), '='] := rfl
      rw [he, base64DecodeChars_cons]
      rw [if_neg (b64Char_ne_pad (b % 16 * 4) (by omega))]
      rw [if_pos rfl]
      rw [b64_indexOf_b64Char (a / 4) (by omega),
        b64_indexOf_b64Char (a % 4 * 16 + b / 16) (by omega),
        b64_indexOf_b64Char (b % 16 * 4) (by omega)]
      simp only [List.cons.injEq, and_true]
      exact ⟨by omega, by omega⟩
  | case4 a b c rest ih =>
      intro h
      have ha : a < 256 := h a (by simp)
      have hb : b < 256 := h b (by simp)
      have hc : c < 256 := h c (by simp)
      have hrest : ∀ x ∈ rest, x < 256 := by
        intro x hx; exact h x (by simp [hx])
      have he : base64EncodeChars (a :: b :: c :: rest)
          = b64Char (a / 4) :: b64Char (a % 4 * 16 + b / 16) ::
              b64Char (b % 16 * 4 + c / 64) :: b64Char (c % 64) ::
              base64EncodeChars rest := rfl
      rw [he, base64DecodeChars_cons]
      rw [if_neg (b64Char_ne_pad (b % 16 * 4 + c / 64) (by omega))]
      rw [if_neg (b64Char_ne_pad (c % 64) (by omega))]
      rw [b64_indexOf_b64Char (a / 4) (by omega),
        b64_indexOf_b64Char (a % 4 * 16 + b / 16) (by omega),
        b64_indexOf_b64Char (b % 16 * 4 + c / 64) (by omega),
        b64_indexOf_b64Char (c % 64) (by omega)]
      rw [ih hrest]
      simp only [List.cons.injEq, and_true]
      exact ⟨by omega, by omega, by omega⟩

theorem b64_roundtrip (bs : List Nat) (h : ∀ b ∈ bs, b < 256) :
    base64Decode (base64Encode bs) = bs := by
  unfold base64Decode base64Encode
  exact b64_chars_roundtrip bs h

theorem hlookup_append (k : String) (l1 l2 : List (String × String)) :
    hlookup k (l1 ++ l2)
      = match hlookup k l1 with
        | some v => some v
        | none => hlookup k l2 := by
  induction l1 with
  | nil => simp [hlookup]
  | cons p t ih =>
      by_cases h : p.1 = k
      · simp [hlookup, h]
      · simp [hlookup, h, ih]

theorem hlookup_map_val (k : String) (base : List (String × String))
    (vfn : String → String → String) :
    hlookup k (base.map (fun p => (p.1, vfn p.1 p.2)))
      = (hlookup k base).map (vfn k) := by
  induction base with
  | nil => simp [hlookup]
  | cons p t ih =>
      by_cases h : p.1 = k
      · subst h; simp [hlookup]
      · simp [hlookup, h, ih]

theorem hlookup_filter_key (k : String) (l : List (String × String))
    (q : String → Bool) :
    hlookup k (l.filter (fun p => q p.1))
      = if q k then hlookup k l else none := by
  induction l with
  | nil => simp [hlookup]
  | cons p t ih =>
      by_cases h : p.1 = k
      · subst h
        by_cases hq : q p.1
        · simp [List.filter, hq, hlookup]
        · simp [List.filter, hq, hlookup, ih, hq]
      · by_cases hq : q p.1
        · simp [List.filter, hq, hlookup, h, ih]
        · simp [List.filter, hq, hlookup, h, ih]

/-- The merged object answers every key from the override object first and
falls back to the base object: manager keys override. -/
theorem hlookup_objAssign (k : String) (base ov : List (String × String)) :
    hlookup k (objAssign base ov)
      = match hlookup k ov with
        | some v => some v
        | none => hlookup k base := by
  unfold objAssign
  rw [hlookup_append]
  rw [hlookup_map_val k base (fun k1 v =>
    match hlookup k1 ov with | some w => w | none => v)]
  rw [hlookup_filter_key k ov (fun k1 => (hlookup k1 base).isNone)]
  cases hb : hlookup k base with
  | some v =>
      simp only [Option.map_some, hb, Option.isNone_some, Bool.false_eq_true, if_false]
      cases ho : hlookup k ov <;> simp
  | none =>
      simp only [Option.map_none, hb, Option.isNone_none, if_true]
      cases ho : hlookup k ov <;> simp

theorem objAssign_nil (base : List (String × String)) :
    objAssign base [] = base := by
  unfold objAssign
  simp only [List.filter_nil, List.append_nil]
  induction base with
  | nil => rfl
  | cons p t ih => simp [hlookup, ih]

theorem resolvePending_inv (s : RelayState) (rid : String) (oc : Outcome)
    (h : Inv s) : Inv (resolvePending s rid oc) := by
  unfold resolvePending
  cases hfind : s.pending.find? (fun w => w.rid == rid) with
  | none => exact h
  | some w =>
      obtain ⟨h1, h2, h3, h4, h5⟩ := h
      have hw : w ∈ s.pending := List.mem_of_find?_eq_some hfind
      refine ⟨?_, ?_, ?_, ?_, ?_⟩
      · intro w2 hw2
        exact h1 w2 (List.mem_of_mem_filter hw2)
      · intro p hp
        simp only [List.mem_append, List.mem_singleton] at hp
        rcases hp with hp | hp
        · exact h2 p hp
        · subst hp
          exact h1 w hw
      · have hsub : (s.pending.filter (fun w2 => !(w2.wid == w.wid))).Sublist s.pending :=
          List.filter_sublist s.pending
        exact (h3 : (widsP s).Nodup).sublist (hsub.map Waiter.wid)
      · show (List.map (fun p => p.1.wid) (s.history ++ [(w, oc)])).Nodup
        rw [List.map_append]
        rw [List.nodup_append]
        exact ⟨h4, List.nodup_singleton w.wid, by
          intro x hx hx2
          simp only [List.map_cons, List.map_nil, List.mem_singleton] at hx2
          subst hx2
          exact h5 w hw hx⟩
      · intro w2 hw2
        have hmem : w2 ∈ s.pending := List.mem_of_mem_filter hw2
        have hne : w2.wid ≠ w.wid := by
          have hp := List.of_mem_filter hw2
          simpa using hp
        show w2.wid ∉ List.map (fun p => p.1.wid) (s.history ++ [(w, oc)])
        rw [List.map_append]
        intro hx
        rcases List.mem_append.mp hx with hx | hx
        · exact h5 w2 hmem hx
        · simp only [List.map_cons, List.map_nil, List.mem_singleton] at hx
          exact hne hx

theorem step_inv (s : RelayState) (e : Ev) (h : Inv s) : Inv (step s e) := by
  obtain ⟨h1, h2, h3, h4, h5⟩ := h
  cases e with
  | connect =>
      exact ⟨h1, h2, h3, h4, h5⟩
  | ask rid =>
      show Inv (match s.current with
        | none => s
        | some g =>
            if s.pending.any (fun w => w.rid == rid) then s
            else
              { s with
                pending := s.pending ++ [⟨s.nextWid, rid, g⟩],
                nextWid := s.nextWid + 1 })
      cases s.current with
      | none => exact ⟨h1, h2, h3, h4, h5⟩
      | some g =>
          dsimp only
          by_cases hany : s.pending.any (fun w => w.rid == rid)
          · rw [if_pos hany]
            exact ⟨h1, h2, h3, h4, h5⟩
          · rw [if_neg hany]
            refine ⟨?_, ?_, ?_, h4, ?_⟩
            · intro w hw
              simp only [List.mem_append, List.mem_singleton] at hw
              rcases hw with hw | hw
              · exact Nat.lt_trans (h1 w hw) (Nat.lt_succ_self _)
              · subst hw
                exact Nat.lt_succ_self _
            · intro p hp
              exact Nat.lt_trans (h2 p hp) (Nat.lt_succ_self _)
            · show (List.map Waiter.wid (s.pending ++ [⟨s.nextWid, rid, g⟩])).Nodup
              rw [List.map_append, List.nodup_append]
              refine ⟨h3, List.nodup_singleton _, ?_⟩
              intro x hx hx2
              simp only [List.map_cons, List.map_nil, List.mem_singleton] at hx2
              subst hx2
              have hwx : ∃ w ∈ s.pending, w.wid = s.nextWid := by
                rcases List.mem_map.mp hx with ⟨w, hw, hww⟩
                exact ⟨w, hw, hww⟩
              rcases hwx with ⟨w, hw, hww⟩
              exact absurd hww (Nat.ne_of_lt (h1 w hw))
            · intro w hw
              simp only [List.mem_append, List.mem_singleton] at hw
              rcases hw with hw | hw
              · exact h5 w hw
              · subst hw
                intro hx
                rcases List.mem_map.mp hx with ⟨p, hp, hpw⟩
                exact absurd hpw (Nat.ne_of_lt (h2 p hp))
  | reply rid => exact resolvePending_inv s rid Outcome.replyResolved ⟨h1, h2, h3, h4, h5⟩
  | timerFire rid => exact resolvePending_inv s rid Outcome.timedOut ⟨h1, h2, h3, h4, h5⟩
  | closeFire g =>
      show Inv (if s.closing.contains g || s.current == some g then
          { s with
            pending := [],
            history := s.history ++ s.pending.map (fun w => (w, Outcome.disconnectedBy g)),
            closing := s.closing.filter (fun g2 => !(g2 == g)),
            current := if s.current == some g then none else s.current }
        else s)
      by_cases hc : (s.closing.contains g || s.current == some g) = true
      · rw [if_pos hc]
        refine ⟨by simp, ?_, by simp [widsP], ?_, by simp⟩
        · intro p hp
          simp only [List.mem_append] at hp
          rcases hp with hp | hp
          · exact h2 p hp
          · rcases List.mem_map.mp hp with ⟨w, hw, hpe⟩
            subst hpe
            exact h1 w hw
        · show (List.map (fun p => p.1.wid)
            (s.history ++ s.pending.map (fun w => (w, Outcome.disconnectedBy g)))).Nodup
          rw [List.map_append, List.map_map, List.nodup_append]
          refine ⟨h4, ?_, ?_⟩
          · have : (fun p => Prod.fst p |>.wid) ∘ (fun w => (w, Outcome.disconnectedBy g))
                = Waiter.wid := rfl
            rw [this]
            exact h3
          · intro x hx hx2
            have : (fun p => Prod.fst p |>.wid) ∘ (fun w => (w, Outcome.disconnectedBy g))
                = Waiter.wid := rfl
            rw [this] at hx2
            rcases List.mem_map.mp hx2 with ⟨w, hw, hww⟩
            subst hww
            exact h5 w hw hx
      · rw [if_neg hc]
        exact ⟨h1, h2, h3, h4, h5⟩

theorem inv_state0 : Inv state0 := by
  refine ⟨?_, ?_, ?_, ?_, ?_⟩ <;> simp [state0, widsP, widsH]

theorem inv_foldl (evs : List Ev) (s : RelayState) (h : Inv s) :
    Inv (evs.foldl step s) := by
  induction evs generalizing s with
  | nil => exact h
  | cons e t ih => exact ih (step s e) (step_inv s e h)

theorem inv_run (evs : List Ev) : Inv (run evs) :=
  inv_foldl evs state0 inv_state0

/-! ## Unfolding lemmas for the HTTP handler -/

theorem httpHandle_ok (conn2 : Bool) (req : HttpRequest) (rid : String) (d1 : Decision)
    (o2 : Except AskError Decision) (t : ForwardedRequest → TargetResp) :
    httpHandle true conn2 req rid (Except.ok d1) o2 t
      = if d1.action = some "reject" then
          { status := 403, rheaders := [],
            rbody := strBytes (jsOr d1.reason "Rejected by manager"),
            targetCall := none, frames := [httpReviewMsg rid req],
            path := HttpPath.rejected403 }
        else httpPhase2 conn2 req rid d1 o2 t := rfl

theorem askM_fail (conn2 : Bool) (o2 : Except AskError Decision)
    (h : conn2 = false ∨ ∃ e, o2 = Except.error e) :
    ∃ e sent, askM conn2 o2 = (Except.error e, sent) := by
  rcases h with h | ⟨e, h⟩
  · subst h
    exact ⟨AskError.managerNotConnected, false, rfl⟩
  · subst h
    cases conn2
    · exact ⟨AskError.managerNotConnected, false, rfl⟩
    · exact ⟨e, true, rfl⟩

theorem httpPhase2_fail (conn2 : Bool) (req : HttpRequest) (rid : String)
    (d1 : Decision) (o2 : Except AskError Decision)
    (t : ForwardedRequest → TargetResp) (e : AskError) (sent : Bool)
    (hask : askM conn2 o2 = (Except.error e, sent)) :
    httpPhase2 conn2 req rid d1 o2 t
      = { status := (t (codeFinalRequest req d1)).status,
          rheaders := (t (codeFinalRequest req d1)).headers,
          rbody := (t (codeFinalRequest req d1)).body,
          targetCall := some (codeFinalRequest req d1),
          frames := httpReviewMsg rid req ::
            (if sent then [httpRespMsg rid (t (codeFinalRequest req d1))] else []),
          path := HttpPath.fallbackOriginal } := by
  unfold httpPhase2
  rw [hask]

theorem httpPhase2_ok (conn2 : Bool) (req : HttpRequest) (rid : String)
    (d1 : Decision) (o2 : Except AskError Decision)
    (t : ForwardedRequest → TargetResp) (d2 : Decision) (sent : Bool)
    (hask : askM conn2 o2 = (Except.ok d2, sent)) :
    httpPhase2 conn2 req rid d1 o2 t
      = (if d2.action = some "reject" then
          { status := 403, rheaders := [],
            rbody := strBytes (jsOr d2.reason "Response rejected by manager"),
            targetCall := some (codeFinalRequest req d1),
            frames := [httpReviewMsg rid req,
              httpRespMsg rid (t (codeFinalRequest req d1))],
            path := HttpPath.respRejected403 }
        else
          { status := (codeFinalResponse (t (codeFinalRequest req d1)) d2).status,
            rheaders := (codeFinalResponse (t (codeFinalRequest req d1)) d2).headers,
            rbody := (codeFinalResponse (t (codeFinalRequest req d1)) d2).body,
            targetCall := some (codeFinalRequest req d1),
            frames := [httpReviewMsg rid req,
              httpRespMsg rid (t (codeFinalRequest req d1))],
            path := HttpPath.merged }) := by
  unfold httpPhase2
  rw [hask]

/-! ## Claim theorems -/

/-- Claim C2: whenever the request review accepted, the target has
responded, and the response-review RPC fails — because no manager
channel is open at that point or because the waiter ends in any error
(timeout or disconnect) — the client receives exactly the original
target response: status, headers and body unmodified, through the
fallback return of lines 196-200 of src/server.js. -/
theorem c2_response_review_fallback (conn2 : Bool) (req : HttpRequest)
    (rid : String) (d1 : Decision) (o2 : Except AskError Decision)
    (t : ForwardedRequest → TargetResp)
    (hacc : d1.action ≠ some "reject")
    (hfail : conn2 = false ∨ ∃ e, o2 = Except.error e) :
    ∃ fwd, (httpHandle true conn2 req rid (Except.ok d1) o2 t).targetCall = some fwd ∧
      (httpHandle true conn2 req rid (Except.ok d1) o2 t).status = (t fwd).status ∧
      (httpHandle true conn2 req rid (Except.ok d1) o2 t).rheaders = (t fwd).headers ∧
      (httpHandle true conn2 req rid (Except.ok d1) o2 t).rbody = (t fwd).body ∧
      (httpHandle true conn2 req rid (Except.ok d1) o2 t).path
        = HttpPath.fallbackOriginal := by
  obtain ⟨e, sent, hask⟩ := askM_fail conn2 o2 hfail
  refine ⟨codeFinalRequest req d1, ?_, ?_, ?_, ?_, ?_⟩ <;>
    rw [httpHandle_ok, if_neg hacc, httpPhase2_fail conn2 req rid d1 o2 t e sent hask]

/-- Witness for C2 at the spec's scenario 6 shape: request accepted,
manager drops before the response review. -/
theorem c2_response_review_fallback_witness :
    ∃ fwd, (httpHandle true true exReq "id0" (Except.ok dAccept)
        (Except.error AskError.managerDisconnected) exTarget).targetCall = some fwd ∧
      (httpHandle true true exReq "id0" (Except.ok dAccept)
        (Except.error AskError.managerDisconnected) exTarget).status
          = (exTarget fwd).status ∧
      (httpHandle true true exReq "id0" (Except.ok dAccept)
        (Except.error AskError.managerDisconnected) exTarget).rheaders
          = (exTarget fwd).headers ∧
      (httpHandle true true exReq "id0" (Except.ok dAccept)
        (Except.error AskError.managerDisconnected) exTarget).rbody
          = (exTarget fwd).body ∧
      (httpHandle true true exReq "id0" (Except.ok dAccept)
        (Except.error AskError.managerDisconnected) exTarget).path
          = HttpPath.fallbackOriginal :=
  c2_response_review_fallback true exReq "id0" dAccept
    (Except.error AskError.managerDisconnected) exTarget (by decide)
    (Or.inr ⟨AskError.managerDisconnected, rfl⟩)

/-- Claim C3, counterexample: with no manager connected the HTTP client
receives 504 (the handler catches the manager-not-connected rejection in
the same catch as a timeout, lines 163-168 of src/server.js), not the
502 the claim states. -/
theorem c3_counterexample :
    (httpHandle false false exReq "id0" (Except.ok dAccept) (Except.ok dAccept)
      exTarget).status = 504 ∧
    ¬ (httpHandle false false exReq "id0" (Except.ok dAccept) (Except.ok dAccept)
      exTarget).status = 502 := by
  constructor
  · rfl
  · decide

/-- Claim C3 as amended: when no manager channel is open, the review RPC
of src/server.js fails immediately with manager-not-connected and no
frame is sent, but the client receives 504 — for plain HTTP requests and
for CONNECT — while the part_000 relayed variant performs no RPC at all
and ends the client socket with its 502 text. -/
theorem c3_not_connected (conn2 : Bool) (req : HttpRequest) (rid : String)
    (o1 o2 : Except AskError Decision) (t : ForwardedRequest → TargetResp)
    (host : String) (port : Nat) (hdrs : List (String × String))
    (oc : Except AskError Decision) (tc : Bool) (n : Nat) :
    (askM false o1).1 = Except.error AskError.managerNotConnected ∧
    (askM false o1).2 = false ∧
    (httpHandle false conn2 req rid o1 o2 t).status = 504 ∧
    (httpHandle false conn2 req rid o1 o2 t).frames = [] ∧
    (httpHandle false conn2 req rid o1 o2 t).targetCall = none ∧
    (connectHandle false rid host port hdrs oc tc).writes = [http504Line] ∧
    (connectHandle false rid host port hdrs oc tc).frames = [] ∧
    (relayConnect false n).writes = [relay502Text] ∧
    (relayConnect false n).frames = [] :=
  ⟨rfl, rfl, rfl, rfl, rfl, rfl, rfl, rfl, rfl⟩

/-- Claim C8, counterexample: a reject decision whose reason is present
but the empty string yields the default text of line 172 of
src/server.js as the 403 body, not the decision's reason. -/
theorem c8_counterexample :
    (httpHandle true true exReq "id0" (Except.ok dRejectEmptyReason)
      (Except.ok dAccept) exTarget).status = 403 ∧
    (httpHandle true true exReq "id0" (Except.ok dRejectEmptyReason)
      (Except.ok dAccept) exTarget).rbody = strBytes "Rejected by manager" ∧
    ¬ (httpHandle true true exReq "id0" (Except.ok dRejectEmptyReason)
      (Except.ok dAccept) exTarget).rbody = strBytes "" := by
  refine ⟨rfl, rfl, by decide⟩

/-- Claim C8 as amended: a reject decision on the request review yields
403 with the decision's reason as the body whenever that reason is a
non-empty string — an absent or empty reason takes the default text,
since line 172 of src/server.js uses JS truthy fallback — and the
target is never dialed. -/
theorem c8_reject_403 (conn2 : Bool) (req : HttpRequest) (rid : String)
    (d : Decision) (o2 : Except AskError Decision)
    (t : ForwardedRequest → TargetResp)
    (hrej : d.action = some "reject") :
    (httpHandle true conn2 req rid (Except.ok d) o2 t).status = 403 ∧
    (httpHandle true conn2 req rid (Except.ok d) o2 t).targetCall = none ∧
    (httpHandle true conn2 req rid (Except.ok d) o2 t).path = HttpPath.rejected403 ∧
    (∀ s, d.reason = some s → s ≠ "" →
      (httpHandle true conn2 req rid (Except.ok d) o2 t).rbody = strBytes s) ∧
    ((d.reason = none ∨ d.reason = some "") →
      (httpHandle true conn2 req rid (Except.ok d) o2 t).rbody
        = strBytes "Rejected by manager") := by
  rw [httpHandle_ok, if_pos hrej]
  refine ⟨rfl, rfl, rfl, ?_, ?_⟩
  · intro s hs hne
    show strBytes (jsOr d.reason "Rejected by manager") = strBytes s
    rw [hs]
    simp [jsOr, hne]
  · intro hr
    show strBytes (jsOr d.reason "Rejected by manager")
      = strBytes "Rejected by manager"
    rcases hr with hr | hr <;> rw [hr] <;> rfl

/-- Witness for C8 at the spec's scenario 2: reject with reason
blocked gives a 403 whose body is blocked and no target dial. -/
theorem c8_reject_403_witness :
    (httpHandle true true exReq "id0" (Except.ok dRejectBlocked)
      (Except.ok dAccept) exTarget).status = 403 ∧
    (httpHandle true true exReq "id0" (Except.ok dRejectBlocked)
      (Except.ok dAccept) exTarget).targetCall = none ∧
    (httpHandle true true exReq "id0" (Except.ok dRejectBlocked)
      (Except.ok dAccept) exTarget).rbody = strBytes "blocked" := by
  have h := c8_reject_403 true exReq "id0" dRejectBlocked (Except.ok dAccept)
    exTarget rfl
  exact ⟨h.1, h.2.1, h.2.2.2.1 "blocked" rfl (by decide)⟩

/-- Claim C10: any decision whose action is not the exact string
reject — missing, empty, or unrecognized — takes the acceptance path:
the target is dialed with the merged request, and when the response
decision is also not a reject the handler ends at the merge-and-write
return point with the merged status. -/
theorem c10_non_reject_accepts (conn2 : Bool) (req : HttpRequest) (rid : String)
    (d1 : Decision) (o2 : Except AskError Decision)
    (t : ForwardedRequest → TargetResp)
    (h1 : d1.action ≠ some "reject") :
    (httpHandle true conn2 req rid (Except.ok d1) o2 t).targetCall
        = some (codeFinalRequest req d1) ∧
    ∀ d2, d2.action ≠ some "reject" →
      (httpHandle true true req rid (Except.ok d1) (Except.ok d2) t).path
          = HttpPath.merged ∧
      (httpHandle true true req rid (Except.ok d1) (Except.ok d2) t).status
          = (codeFinalResponse (t (codeFinalRequest req d1)) d2).status := by
  constructor
  · rw [httpHandle_ok, if_neg h1]
    rcases hh : askM conn2 o2 with ⟨o, sent⟩
    cases o with
    | error e =>
        rw [httpPhase2_fail conn2 req rid d1 o2 t e sent hh]
    | ok d2 =>
        rw [httpPhase2_ok conn2 req rid d1 o2 t d2 sent hh]
        by_cases h2 : d2.action = some "reject"
        · rw [if_pos h2]
        · rw [if_neg h2]
  · intro d2 h2
    rw [httpHandle_ok, if_neg h1,
      httpPhase2_ok true req rid d1 (Except.ok d2) t d2 true rfl, if_neg h2]
    exact ⟨rfl, rfl⟩

/-- Witness for C10: a decision with no action field at all and a
response decision whose action is the empty string both count as
acceptance. -/
theorem c10_non_reject_accepts_witness :
    (httpHandle true true exReq "id0" (Except.ok dNoAction)
        (Except.ok dEmptyAction) exTarget).targetCall
      = some (codeFinalRequest exReq dNoAction) ∧
    (httpHandle true true exReq "id0" (Except.ok dNoAction)
        (Except.ok dEmptyAction) exTarget).path = HttpPath.merged := by
  have h := c10_non_reject_accepts true exReq "id0" dNoAction
    (Except.ok dEmptyAction) exTarget (by decide)
  exact ⟨h.1, (h.2 dEmptyAction (by decide)).1⟩

/-- Claim C1, counterexample: a decision whose modified record carries
the url field with the empty string is merged per the spec's words by
replacing the url, but line 176 of src/server.js uses JS truthy
fallback, so the code forwards to the original url: the forwarded
request differs from the spec-worded merge. -/
theorem c1_counterexample :
    ((httpHandle true true exReq "id0" (Except.ok dAcceptEmptyUrl)
        (Except.ok dAccept) exTarget).targetCall.map ForwardedRequest.url)
      = some "http://example.test/a" ∧
    (specMergeHttp exReq modEmptyUrl).url = "" ∧
    ¬ (httpHandle true true exReq "id0" (Except.ok dAcceptEmptyUrl)
        (Except.ok dAccept) exTarget).targetCall
      = some (specMergeHttp exReq modEmptyUrl) := by
  refine ⟨rfl, rfl, by decide⟩

/-- Claim C1 as amended: on a non-reject request decision the target is
dialed with the merged request: url, method and body are replaced when
the modified field is present and non-empty (JS truthiness; an
empty-string field keeps the original), headers are shallow-merged with
manager keys overriding, every unspecified field keeps the original,
and a decision with no modified record forwards the request
identically. -/
theorem c1_accept_merge (conn2 : Bool) (req : HttpRequest) (rid : String)
    (d1 : Decision) (o2 : Except AskError Decision)
    (t : ForwardedRequest → TargetResp)
    (hacc : d1.action ≠ some "reject") :
    ∃ fwd, (httpHandle true conn2 req rid (Except.ok d1) o2 t).targetCall
        = some fwd ∧
      (d1.modified = none → fwd = toForwarded req) ∧
      ∀ m, d1.modified = some m →
        ((m.url = none ∨ m.url = some "") → fwd.url = req.url) ∧
        (∀ u, m.url = some u → u ≠ "" → fwd.url = u) ∧
        ((m.method = none ∨ m.method = some "") → fwd.method = req.method) ∧
        (∀ v, m.method = some v → v ≠ "" → fwd.method = v) ∧
        ((m.body = none ∨ m.body = some "") → fwd.body = req.body) ∧
        (∀ b, m.body = some b → b ≠ "" → fwd.body = base64Decode b) ∧
        (∀ k, hlookup k fwd.headers
          = match hlookup k (m.headers.getD []) with
            | some v => some v
            | none => hlookup k req.headers) := by
  have htc : (httpHandle true conn2 req rid (Except.ok d1) o2 t).targetCall
      = some (codeFinalRequest req d1) := by
    rw [httpHandle_ok, if_neg hacc]
    rcases hh : askM conn2 o2 with ⟨o, sent⟩
    cases o with
    | error e => rw [httpPhase2_fail conn2 req rid d1 o2 t e sent hh]
    | ok d2 =>
        rw [httpPhase2_ok conn2 req rid d1 o2 t d2 sent hh]
        by_cases h2 : d2.action = some "reject"
        · rw [if_pos h2]
        · rw [if_neg h2]
  refine ⟨codeFinalRequest req d1, htc, ?_, ?_⟩
  · intro hm
    unfold codeFinalRequest toForwarded
    rw [hm]
    simp [jsOr, jsBodyPick, objAssign_nil]
  · intro m hm
    have hfwd : codeFinalRequest req d1
        = ⟨jsOr m.url req.url, jsOr m.method req.method,
           objAssign req.headers (m.headers.getD []),
           jsBodyPick m.body req.body⟩ := by
      unfold codeFinalRequest
      rw [hm]
      rfl
    rw [hfwd]
    refine ⟨?_, ?_, ?_, ?_, ?_, ?_, ?_⟩
    · intro hu
      show jsOr m.url req.url = req.url
      rcases hu with hu | hu <;> rw [hu] <;> rfl
    · intro u hu hne
      show jsOr m.url req.url = u
      rw [hu]
      simp [jsOr, hne]
    · intro hv
      show jsOr m.method req.method = req.method
      rcases hv with hv | hv <;> rw [hv] <;> rfl
    · intro v hv hne
      show jsOr m.method req.method = v
      rw [hv]
      simp [jsOr, hne]
    · intro hb
      show jsBodyPick m.body req.body = req.body
      rcases hb with hb | hb <;> rw [hb] <;> rfl
    · intro b hb hne
      show jsBodyPick m.body req.body = base64Decode b
      rw [hb]
      simp [jsBodyPick, hne]
    · intro k
      exact hlookup_objAssign k req.headers (m.headers.getD [])

/-- Witness for C1: a decision with no modified record forwards the
spec scenario request unchanged. -/
theorem c1_accept_merge_witness :
    ∃ fwd, (httpHandle true true exReq "id0" (Except.ok dAccept)
        (Except.ok dAccept) exTarget).targetCall = some fwd ∧
      fwd = toForwarded exReq := by
  obtain ⟨fwd, htc, hnone, _⟩ := c1_accept_merge true exReq "id0" dAccept
    (Except.ok dAccept) exTarget (by decide)
  exact ⟨fwd, htc, hnone rfl⟩

/-- Unfolding of the direct-splice CONNECT handler on an open channel
and a decision reply. -/
theorem connectHandle_ok (rid host : String) (port : Nat)
    (hdrs : List (String × String)) (d : Decision) (tc : Bool) :
    connectHandle true rid host port hdrs (Except.ok d) tc
      = (if d.action = some "reject" then
          ⟨[http403Line], [Frame.reviewRequestConnect rid host port hdrs],
            false, false⟩
        else if tc then
          ⟨[http200Line], [Frame.reviewRequestConnect rid host port hdrs],
            true, true⟩
        else
          ⟨[http502Line], [Frame.reviewRequestConnect rid host port hdrs],
            false, true⟩) := rfl

/-- Claim C4, counterexample: the relayed variant's CONNECT handler
writes the 200 to the client with no review-request RPC ever performed —
it emits no frame at all at setup, refuting the claim for relayed
mode. -/
theorem c4_counterexample :
    (relayConnect true 1).writes = [http200Line] ∧
    (relayConnect true 1).frames = [] ∧
    (relayConnect true 1).registeredId = some "1" := by
  refine ⟨rfl, rfl, by decide⟩

/-- Claim C4 as amended: in the direct-splice variant every established
CONNECT tunnel was preceded by the connect review-request frame and a
decision reply whose action is not reject; in the relayed variant no
review RPC exists — the 200 is written unconditionally once the manager
channel is open. -/
theorem c4_connect_review (conn : Bool) (rid host : String) (port : Nat)
    (hdrs : List (String × String)) (oc : Except AskError Decision)
    (tc : Bool) (n : Nat) :
    ((connectHandle conn rid host port hdrs oc tc).tunneled = true →
      (connectHandle conn rid host port hdrs oc tc).writes = [http200Line] ∧
      (connectHandle conn rid host port hdrs oc tc).frames
          = [Frame.reviewRequestConnect rid host port hdrs] ∧
      ∃ d, (askM conn oc).1 = Except.ok d ∧ d.action ≠ some "reject") ∧
    ((relayConnect true n).writes = [http200Line] ∧
      (relayConnect true n).frames = []) := by
  constructor
  · intro ht
    cases conn with
    | false => simp [connectHandle, askM] at ht
    | true =>
        cases oc with
        | error e => simp [connectHandle, askM] at ht
        | ok d =>
            rw [connectHandle_ok] at ht ⊢
            by_cases hr : d.action = some "reject"
            · rw [if_pos hr] at ht
              simp at ht
            · rw [if_neg hr] at ht ⊢
              cases tc with
              | false => simp at ht
              | true => exact ⟨rfl, rfl, d, rfl, hr⟩
  · exact ⟨rfl, rfl⟩

/-- Witness for C4 at an accepted, successfully dialed tunnel. -/
theorem c4_connect_review_witness :
    (connectHandle true "id0" "example.test" 443 [] (Except.ok dAccept)
        true).writes = [http200Line] ∧
    (connectHandle true "id0" "example.test" 443 [] (Except.ok dAccept)
        true).frames = [Frame.reviewRequestConnect "id0" "example.test" 443 []] ∧
    ∃ d, (askM true (Except.ok dAccept)).1 = Except.ok d ∧
      d.action ≠ some "reject" := by
  have h := c4_connect_review true "id0" "example.test" 443 []
    (Except.ok dAccept) true 1
  exact h.1 rfl

/-- Claim C5: the handover ordering fails on the code. `manager.close()`
at line 49 of src/server.js only starts the closing handshake;
`manager = ws` installs the replacement at once, and the old channel's
close listener runs later, rejecting and clearing the shared
pendingDecisions map. The trace below connects a second manager, issues
an RPC on the new channel (generation 1) and then lets the old
channel's (generation 0) close event fire: the fresh waiter is failed
with manager-disconnected by the old channel's teardown, which the
claim says can never happen. -/
theorem c5_handover_race :
    (run [Ev.connect, Ev.connect, Ev.ask "r", Ev.closeFire 0]).history
      = [(⟨0, "r", 1⟩, Outcome.disconnectedBy 0)] ∧
    (run [Ev.connect, Ev.connect, Ev.ask "r", Ev.closeFire 0]).current = some 1 ∧
    (1 : Nat) ≠ 0 := by
  refine ⟨by decide, by decide, by decide⟩

/-- Unfolding of the close event when the closing channel is either the
current one or a superseded one awaiting teardown. -/
theorem step_closeFire (s : RelayState) (g : Nat) (hc : closeEnabled s g) :
    step s (Ev.closeFire g)
      = { s with
          pending := [],
          history := s.history
            ++ s.pending.map (fun w => (w, Outcome.disconnectedBy g)),
          closing := s.closing.filter (fun g2 => !(g2 == g)),
          current := if s.current == some g then none else s.current } := by
  have hc2 : (s.closing.contains g || s.current == some g) = true := hc
  unfold step
  dsimp only
  rw [if_pos hc2]

/-- Claim C7: in every reachable state of the pending-decision model the
table invariant holds — waiter numbers are never resolved twice (the
history is duplicate-free and disjoint from the table), so a waiter is
settled exactly once by the first of reply, deadline, and failAll — and
firing a close event empties the table while failing every waiter that
was pending with manager-disconnected. -/
theorem c7_waiter_single_resolution (evs : List Ev) (g : Nat)
    (hen : closeEnabled (run evs) g) :
    Inv (run evs) ∧
    (step (run evs) (Ev.closeFire g)).pending = [] ∧
    ∀ w ∈ (run evs).pending,
      (w, Outcome.disconnectedBy g) ∈ (step (run evs) (Ev.closeFire g)).history := by
  refine ⟨inv_run evs, ?_, ?_⟩
  · rw [step_closeFire (run evs) g hen]
  · intro w hw
    rw [step_closeFire (run evs) g hen]
    exact List.mem_append.mpr (Or.inr (List.mem_map.mpr ⟨w, hw, rfl⟩))

/-- Witness for C7: one connected manager, one pending waiter, the
channel drops. -/
theorem c7_waiter_single_resolution_witness :
    Inv (run [Ev.connect, Ev.ask "r"]) ∧
    (step (run [Ev.connect, Ev.ask "r"]) (Ev.closeFire 0)).pending = [] ∧
    ∀ w ∈ (run [Ev.connect, Ev.ask "r"]).pending,
      (w, Outcome.disconnectedBy 0)
        ∈ (step (run [Ev.connect, Ev.ask "r"]) (Ev.closeFire 0)).history :=
  c7_waiter_single_resolution [Ev.connect, Ev.ask "r"] 0 (by decide)

/-- Claim C6, counterexample: the two review RPC frames of one accepted
HTTP transaction carry the same RequestId — line 145 of src/server.js
draws one uuid per request and reuses it for the response review — so
their id list is not duplicate-free, refuting per-RPC uniqueness. -/
theorem c6_counterexample :
    ((httpHandle true true exReq "id0" (Except.ok dAccept) (Except.ok dAccept)
        exTarget).frames.map frameId) = ["id0", "id0"] ∧
    ¬ ((httpHandle true true exReq "id0" (Except.ok dAccept) (Except.ok dAccept)
        exTarget).frames.map frameId).Nodup := by
  refine ⟨rfl, by decide⟩

/-- Claim C6 as amended: the id is unique per HTTP transaction, not per
RPC — every frame the handler sends during one transaction carries the
transaction's single RequestId. -/
theorem c6_frames_share_transaction_id (conn1 conn2 : Bool) (req : HttpRequest)
    (rid : String) (o1 o2 : Except AskError Decision)
    (t : ForwardedRequest → TargetResp) :
    ∀ f ∈ (httpHandle conn1 conn2 req rid o1 o2 t).frames, frameId f = rid := by
  intro f hf
  cases conn1 with
  | false => simp [httpHandle, askM] at hf
  | true =>
      cases o1 with
      | error e =>
          have he : (httpHandle true conn2 req rid (Except.error e) o2 t).frames
              = [httpReviewMsg rid req] := rfl
          rw [he, List.mem_singleton] at hf
          rw [hf]
          rfl
      | ok d1 =>
          by_cases h1 : d1.action = some "reject"
          · rw [httpHandle_ok, if_pos h1, List.mem_singleton] at hf
            rw [hf]
            rfl
          · rw [httpHandle_ok, if_neg h1] at hf
            rcases hh : askM conn2 o2 with ⟨o, sent⟩
            cases o with
            | error e2 =>
                rw [httpPhase2_fail conn2 req rid d1 o2 t e2 sent hh] at hf
                simp only [List.mem_cons] at hf
                rcases hf with hf | hf
                · rw [hf]; rfl
                · cases sent with
                  | false => simp at hf
                  | true =>
                      rw [if_pos rfl, List.mem_singleton] at hf
                      rw [hf]
                      rfl
            | ok d2 =>
                rw [httpPhase2_ok conn2 req rid d1 o2 t d2 sent hh] at hf
                by_cases h2 : d2.action = some "reject"
                · rw [if_pos h2] at hf
                  simp only [List.mem_cons, List.mem_singleton] at hf
                  rcases hf with hf | hf | hf
                  · rw [hf]; rfl
                  · rw [hf]; rfl
                  · simp at hf
                · rw [if_neg h2] at hf
                  simp only [List.mem_cons, List.mem_singleton] at hf
                  rcases hf with hf | hf | hf
                  · rw [hf]; rfl
                  · rw [hf]; rfl
                  · simp at hf

/-- Witness for C6 at the review-request frame of the scenario run. -/
theorem c6_frames_share_transaction_id_witness :
    frameId (httpReviewMsg "id0" exReq) = "id0" :=
  c6_frames_share_transaction_id true true exReq "id0" (Except.ok dAccept)
    (Except.ok dAccept) exTarget (httpReviewMsg "id0" exReq) (by decide)

/-- Registering filter: after a close unregisters an id, lookups of that
id fail. -/
theorem contains_filter_self (l : List String) (x : String) :
    (l.filter (fun c => !(c == x))).contains x = false := by
  induction l with
  | nil => rfl
  | cons a t ih =>
      by_cases h : a = x
      · simp [List.filter_cons, h, ih]
      · have h2 : ¬x = a := fun he => h he.symm
        simp [List.filter_cons, h, ih, h2]

/-- Claim C9: in the relayed variant, every chunk read from a client
socket becomes a data frame carrying exactly its base64 encoding; an
inbound data frame for a registered id writes its base64-decoded
payload to that socket (so a relayed chunk round-trips byte-exact), an
inbound frame for an unregistered id is dropped, and the client close
unregisters the id and emits the final end frame. -/
theorem c9_relay_data_frames (conns : List String) (rid host port : String)
    (chunk : List Nat) (ty d64 : String)
    (hbytes : ∀ b ∈ chunk, b < 256) :
    relayOnData rid host port chunk
        = RelayFrame.data rid host port (base64Encode chunk) ∧
    (conns.contains rid = true →
      relayDispatch conns rid "data" d64
        = SockEffect.write rid (base64Decode d64)) ∧
    (conns.contains rid = true →
      relayDispatch conns rid "data" (base64Encode chunk)
        = SockEffect.write rid chunk) ∧
    (conns.contains rid = false →
      relayDispatch conns rid ty d64 = SockEffect.noEffect) ∧
    (relayOnClose true rid conns).1.contains rid = false ∧
    (relayOnClose true rid conns).2 = [RelayFrame.endFrame rid] := by
  refine ⟨rfl, ?_, ?_, ?_, ?_, rfl⟩
  · intro hc
    unfold relayDispatch
    rw [if_pos hc]
    rfl
  · intro hc
    unfold relayDispatch
    rw [if_pos hc, b64_roundtrip chunk hbytes]
    rfl
  · intro hc
    unfold relayDispatch
    rw [hc]
    rfl
  · exact contains_filter_self conns rid

/-- Witness for C9 at the spec's scenario 4: the chunk ABC relayed for
the registered id. -/
theorem c9_relay_data_frames_witness :
    relayOnData "1" "example.test" "443" [65, 66, 67]
        = RelayFrame.data "1" "example.test" "443" (base64Encode [65, 66, 67]) ∧
    relayDispatch ["1"] "1" "data" (base64Encode [65, 66, 67])
        = SockEffect.write "1" [65, 66, 67] := by
  have h := c9_relay_data_frames ["1"] "1" "example.test" "443" [65, 66, 67]
    "end" "" (by decide)
  exact ⟨h.1, h.2.2.1 (by decide)⟩

end ProxyRelay
